import Mathlib

/-!
Shallow embedding of the `sanglier` PostHog batching client
(src/event.rs and src/queue.rs), together with proofs about the
claims of the natural-language specification.

The embedding models:
  * the event data model and fluent builder API (`event.rs`);
  * the serde-derived wire shaping of `EventRecord` / `EventProperties` /
    `Batch` that `runtime` declares locally in `queue.rs` (serialization to a
    small JSON value type, faithful to every `skip_serializing_if`
    attribute);
  * the dispatcher loop body of `runtime` as a step function `cycle` on an
    explicit runtime state (channel contents, wakeup-semaphore permits, the
    reused `events_serde` buffer, and the list of issued batch requests),
    with producer activity (enqueues at the loop's await points, the
    `tokio::select!` outcome, the HTTP delivery outcome) supplied as
    explicit per-iteration inputs;
  * the wakeup semaphore operations (`force_process`, `try_acquire`,
    `acquire().forget()`) as functions on the permit count;
  * the `PostHogBuilder` configuration surface and its `drive` entry point
    (the two `panic!` guards modelled as an explicit setup-failure outcome).
-/

namespace Sanglier

/-- A small JSON value type: the target of the serde-style serialization.
Objects are ordered key/value lists, exactly as `serde_json` emits them. -/
inductive J where
  | jstr : String → J
  | jbool : Bool → J
  | jobj : List (String × J) → J
  | jarr : List J → J

/-- First-match key lookup in a serialized JSON object's field list. -/
def lookupKey (k : String) : List (String × J) → Option J
  | [] => none
  | (k', v) :: rest => if k' = k then some v else lookupKey k rest

/-- `Event<P>` from `event.rs`, at the runtime's instantiation
`Event<Option<P>>`: `properties` is `Option P` (absent unless the builder's
`properties` method was called). The `precise_timings` timestamp field is
compile-time disabled by default and not modelled. -/
structure Event (P : Type) where
  name : String
  distinct_id : String
  properties : Option P
deriving DecidableEq, Repr

/-- `NewEvent` from `event.rs` (the handle back to the `PostHog` client is
irrelevant to the record's value and not modelled). -/
structure NewEvent (P : Type) where
  event : Event P
deriving DecidableEq, Repr

/-- `NewEventWithIdentity` from `event.rs`. -/
structure NewEventWithIdentity (P : Type) where
  inner : NewEvent P
deriving DecidableEq, Repr

variable {P : Type}

/-- `PostHog::capture` from `queue.rs`: a fresh event with empty
`distinct_id` and no properties. -/
def capture (name : String) : NewEvent P :=
  { event := { name := name, distinct_id := "", properties := none } }

/-- `NewEvent::identify` from `event.rs`. -/
def NewEvent.identify (e : NewEvent P) (distinct_id : String) : NewEventWithIdentity P :=
  { inner := { event := { e.event with distinct_id := distinct_id } } }

/-- `NewEvent::anonymous` from `event.rs`: keeps the (empty) identity. -/
def NewEvent.anonymous (e : NewEvent P) : NewEventWithIdentity P :=
  { inner := e }

/-- `NewEventWithIdentity::properties` from `event.rs`. -/
def NewEventWithIdentity.withProperties (e : NewEventWithIdentity P) (p : P) :
    NewEventWithIdentity P :=
  { inner := { event := { e.inner.event with properties := some p } } }

/-- The finished record that `enqueue` hands to the ingress channel. -/
def NewEventWithIdentity.finished (e : NewEventWithIdentity P) : Event P :=
  e.inner.event

/-- `EventProperties<P>` declared inside `runtime` in `queue.rs`. -/
structure EventProperties (P : Type) where
  process_person_profile : Bool
  lib_name : String
  properties : Option P
deriving DecidableEq, Repr

/-- `EventRecord<P>` declared inside `runtime` in `queue.rs`. -/
structure EventRecord (P : Type) where
  event : String
  distinct_id : String
  properties : EventProperties P
deriving DecidableEq, Repr

/-- Serialization behaviour of the caller's `P: Serialize` payload: a
function from the payload to the field list it flattens to, `none` when the
payload fails to serialize (or does not serialize to an object, which
`#[serde(flatten)]` also rejects). -/
def PSer (P : Type) := P → Option (List (String × J))

/-- Serde serialization of `EventProperties` in `queue.rs`:
`process_person_profile` is renamed to `$process_person_profile` and carries
`skip_serializing_if = "Clone::clone"`, so the field is SKIPPED exactly when
its boolean value is `true`; `lib_name` is renamed to `$lib_name`; the
caller payload is flattened in, skipped when `None`. -/
def serializeEventProperties (serP : PSer P) (ep : EventProperties P) :
    Option (List (String × J)) :=
  let base :=
    (if ep.process_person_profile then []
     else [("$process_person_profile", J.jbool ep.process_person_profile)])
    ++ [("$lib_name", J.jstr ep.lib_name)]
  match ep.properties with
  | none => some base
  | some p => (serP p).map (fun fields => base ++ fields)

/-- Serde serialization of `EventRecord` in `queue.rs`: `distinct_id`
carries `skip_serializing_if = "str::is_empty"`. -/
def serializeEventRecord (serP : PSer P) (r : EventRecord P) :
    Option (List (String × J)) :=
  (serializeEventProperties serP r.properties).map (fun props =>
    [("event", J.jstr r.event)]
    ++ (if r.distinct_id.isEmpty then [] else [("distinct_id", J.jstr r.distinct_id)])
    ++ [("properties", J.jobj props)])

/-- Sequential fallible serialization of a list (serde serializes the batch
array element by element and fails as soon as one element fails). -/
def mapOption (f : α → Option β) : List α → Option (List β)
  | [] => some []
  | a :: as =>
    match f a, mapOption f as with
    | some b, some bs => some (b :: bs)
    | _, _ => none

/-- Serde serialization of the `Batch` struct in `queue.rs`
(`serde_json::to_string(&batch)`, structurally). -/
def serializeBatch (serP : PSer P) (api_key : String) (recs : List (EventRecord P)) :
    Option J :=
  (mapOption (fun r => (serializeEventRecord serP r).map J.jobj) recs).map
    (fun arr => J.jobj [("api_key", J.jstr api_key), ("batch", J.jarr arr)])

/-- The record-shaping loop body in `runtime` (`queue.rs` lines 187-199):
`process_person_profile` is set to `!ev.distinct_id.is_empty()` and
`lib_name` to `"sanglier"`. -/
def toEventRecord (ev : Event P) : EventRecord P :=
  { event := ev.name
    distinct_id := ev.distinct_id
    properties :=
      { process_person_profile := !ev.distinct_id.isEmpty
        lib_name := "sanglier"
        properties := ev.properties } }

/-- The event `ev` (and hence the whole batch containing it) serializes
successfully under the payload serializer `serP`. -/
def serOk (serP : PSer P) (ev : Event P) : Prop :=
  (serializeEventRecord serP (toEventRecord ev)).isSome = true

instance (serP : PSer P) (ev : Event P) : Decidable (serOk serP ev) := by
  unfold serOk; infer_instance

/-- `PROCESS_MAX` from `queue.rs`. -/
def PROCESS_MAX : Nat := 128

/-- State of the dispatcher's world between iterations of the `loop` in
`runtime` (`queue.rs`): the buffered contents of the unbounded ingress
channel, whether all sender handles have been dropped (ghost flag: with the
channel closed no further arrivals occur), the wakeup semaphore's available
permits, the reused `events_serde` accumulation buffer, and — as the
observable output — the list of batch bodies handed to `http.post`, in
issue order. -/
structure RtState (P : Type) where
  chan : List (Event P)
  closed : Bool
  permits : Nat
  buf : List (EventRecord P)
  sent : List (List (EventRecord P))
deriving DecidableEq, Repr

/-- Environment activity during one iteration of the loop: whether the
`tokio::select!` in the idle wait resolves its `wakeup.acquire()` arm
(rather than the `sleep`), the records producers enqueue before the
`recv.len()` read, the records producers enqueue after the drain (during
the HTTP await / before the next iteration's `is_empty` check), and whether
the HTTP delivery reports success (2xx) — the loop only logs the outcome,
so this flag must not influence the next state. -/
structure CycleInput (P : Type) where
  wakeWon : Bool
  arrWait : List (Event P)
  arrSend : List (Event P)
  deliverOk : Bool
deriving DecidableEq, Repr

/-- Outcome of one pass through the loop body: `next` continues the loop,
`exit` is the `break` at the bottom of `runtime`. -/
inductive CycleResult (P : Type) where
  | next (s : RtState P)
  | exit (s : RtState P)
deriving DecidableEq, Repr

/-- `wakeup.try_acquire()` followed by `permit.forget()` (`queue.rs`
lines 175-177), and equally the net effect of a completed
`wakeup.acquire()` + `forget()`: one permit is consumed when available. -/
def tryAcquireForget (p : Nat) : Nat := if 0 < p then p - 1 else p

/-- `PostHog::force_process` from `queue.rs`: add one permit only when no
permit is outstanding. -/
def force_process (permits : Nat) : Nat :=
  if permits = 0 then permits + 1 else permits

/-- Net effect of the loop's idle wait (steps 1-2 of `cycle`) on the wakeup
semaphore's permits: when the channel is empty and the `select!` resolves
its acquire arm, a permit is consumed and forgotten; then `try_acquire`
consumes one more if still available. -/
def idlePermits (i : CycleInput P) (s : RtState P) : Nat :=
  tryAcquireForget
    (if s.chan.isEmpty = true ∧ i.wakeWon = true ∧ 0 < s.permits
     then s.permits - 1 else s.permits)

/-- One pass through the `loop` body of `runtime` in `queue.rs`:
  1. if the channel is empty, idle-wait (`select!` between `sleep(tick)`
     and `wakeup.acquire()`; the acquire arm forgets a permit);
  2. `try_acquire` + forget an outstanding permit;
  3. `max = recv.len().min(PROCESS_MAX)`; if `max == 0`, `continue`;
  4. `recv_many` drains exactly `max` already-buffered records (it returns
     at most `max`, and at least `max` because `max` records are buffered
     and this receiver is the only consumer);
  5. each drained record is shaped by `toEventRecord` and pushed onto
     `events_serde`;
  6. the batch is serialized; on success one POST is issued (recorded in
     `sent`; the delivery outcome is only logged), on failure no request
     is made;
  7. `events_serde.clear()`;
  8. `break` iff `processed < max`, else loop.
The permit bookkeeping of steps 1-2 is the separate `idlePermits`. -/
def cycle (serP : PSer P) (api_key : String) (i : CycleInput P) (s : RtState P) :
    CycleResult P :=
  let p2 := idlePermits i s
  let chan1 := s.chan ++ i.arrWait
  let max := min chan1.length PROCESS_MAX
  if max = 0 then
    CycleResult.next { s with permits := p2, chan := chan1 ++ i.arrSend }
  else
    let drained := chan1.take max
    let recs := s.buf ++ drained.map toEventRecord
    let sent' := match serializeBatch serP api_key recs with
      | some _ => s.sent ++ [recs]
      | none => s.sent
    let s' : RtState P :=
      { chan := chan1.drop max ++ i.arrSend
        closed := s.closed
        permits := p2
        buf := []
        sent := sent' }
    if drained.length < max then CycleResult.exit s' else CycleResult.next s'

/-- Result of running the loop for a bounded number of iterations:
`running` means the loop is still going (it never reached `break`),
`exited` means the `break` fired. -/
inductive RunResult (P : Type) where
  | running (s : RtState P)
  | exited (s : RtState P)
deriving DecidableEq, Repr

/-- Iterate the loop body once per entry of `inputs`. -/
def run (serP : PSer P) (api_key : String) :
    List (CycleInput P) → RtState P → RunResult P
  | [], s => RunResult.running s
  | i :: is, s =>
    match cycle serP api_key i s with
    | CycleResult.next s' => run serP api_key is s'
    | CycleResult.exit s' => RunResult.exited s'

/-- `PostHogBuilder` from `queue.rs` (`tick` in milliseconds). -/
structure PostHogBuilder where
  tick : Nat
  api_key : String
  base_url : String
  user_agent : String
deriving DecidableEq, Repr

/-- `Default for PostHogBuilder`. -/
def PostHogBuilder.default : PostHogBuilder :=
  { tick := 2000, api_key := "", base_url := "", user_agent := "sanglier/0.1.0" }

/-- `PostHogBuilder::batch_delay`. -/
def PostHogBuilder.batch_delay (b : PostHogBuilder) (tick : Nat) : PostHogBuilder :=
  { b with tick := tick }

/-- `PostHogBuilder::with_base_url` (trims trailing slashes). -/
def PostHogBuilder.with_base_url (b : PostHogBuilder) (url : String) : PostHogBuilder :=
  { b with base_url := url.dropRightWhile (fun c => c = '/') }

/-- `PostHogBuilder::with_api_key`. -/
def PostHogBuilder.with_api_key (b : PostHogBuilder) (api_key : String) : PostHogBuilder :=
  { b with api_key := api_key }

/-- `PostHogBuilder::with_user_agent`. -/
def PostHogBuilder.with_user_agent (b : PostHogBuilder) (user_agent : String) :
    PostHogBuilder :=
  { b with user_agent := user_agent }

/-- Outcome of `PostHogBuilder::drive`: `setupFailure` models the two
`panic!` guards (which fire before anything is built or spawned),
`clientBuildError` the `?` on `reqwest::ClientBuilder::build`, and
`driven` the success path carrying the freshly spawned dispatcher's initial
runtime state (empty channel, senders alive, `Semaphore::new(0)`, empty
buffer, nothing sent). -/
inductive DriveResult (P : Type) where
  | setupFailure (msg : String)
  | clientBuildError
  | driven (dispatcher : RtState P)
deriving DecidableEq, Repr

/-- The runtime state `drive` spawns the dispatcher task with. -/
def initialRtState (P : Type) : RtState P :=
  { chan := [], closed := false, permits := 0, buf := [], sent := [] }

/-- `PostHogBuilder::drive` from `queue.rs`: panic on empty `api_key`,
then panic on empty `base_url`, then build the HTTP client (fallibility
abstracted as `httpBuildOk`), then spawn `runtime`. -/
def drive (P : Type) (b : PostHogBuilder) (httpBuildOk : Bool) : DriveResult P :=
  if b.api_key.isEmpty then DriveResult.setupFailure "Missing PostHog API key"
  else if b.base_url.isEmpty then DriveResult.setupFailure "Missing PostHog base URL"
  else if httpBuildOk then DriveResult.driven (initialRtState P)
  else DriveResult.clientBuildError

/-- A single operation on the wakeup semaphore's permit count: a producer's
`force_process`, or the dispatcher's `try_acquire`/`acquire` (each followed
by `forget`). -/
inductive WakeOp where
  | force
  | tryAcquire
  | acquireForget
deriving DecidableEq, Repr

/-- Apply one wakeup-semaphore operation to the permit count. -/
def WakeOp.apply (p : Nat) : WakeOp → Nat
  | WakeOp.force => force_process p
  | WakeOp.tryAcquire => tryAcquireForget p
  | WakeOp.acquireForget => tryAcquireForget p

/-- Permit count after a sequence of operations on the wakeup semaphore,
starting from its initial `Semaphore::new(0)` state. -/
def wakePermits (ops : List WakeOp) : Nat := ops.foldl WakeOp.apply 0

/-! ## Helper lemmas -/

theorem mapOption_isSome {α β : Type} (f : α → Option β) (l : List α)
    (h : ∀ a ∈ l, (f a).isSome = true) : ∃ bs, mapOption f l = some bs := by
  induction l with
  | nil => exact ⟨[], rfl⟩
  | cons a as ih =>
    obtain ⟨b, hb⟩ := Option.isSome_iff_exists.mp (h a (by simp))
    obtain ⟨bs, hbs⟩ := ih (fun x hx => h x (by simp [hx]))
    exact ⟨b :: bs, by simp [mapOption, hb, hbs]⟩

theorem serializeBatch_isSome (serP : PSer P) (k : String) (l : List (Event P))
    (h : ∀ ev ∈ l, serOk serP ev) :
    (serializeBatch serP k (l.map toEventRecord)).isSome = true := by
  have hall : ∀ r ∈ l.map toEventRecord,
      ((serializeEventRecord serP r).map J.jobj).isSome = true := by
    intro r hr
    obtain ⟨ev, hev, rfl⟩ := List.mem_map.mp hr
    simpa [Option.isSome_map] using h ev hev
  obtain ⟨bs, hbs⟩ :=
    mapOption_isSome (fun r => (serializeEventRecord serP r).map J.jobj)
      (l.map toEventRecord) hall
  simp [serializeBatch, hbs]

/-- An iteration that starts with an empty channel and sees no arrivals
before the `recv.len()` read only touches the wakeup permits: no record is
shaped, nothing is serialized, no request is issued, and the loop
continues. -/
theorem cycle_of_empty (serP : PSer P) (k : String) (i : CycleInput P) (s : RtState P)
    (hc : s.chan = []) (hw : i.arrWait = []) :
    cycle serP k i s =
      CycleResult.next { s with permits := idlePermits i s, chan := i.arrSend } := by
  simp [cycle, hc, hw]

/-- An iteration that reaches the drain phase with a non-empty channel:
exactly `max = min(len, PROCESS_MAX)` records are drained in order, the
buffer ends empty, the loop continues, and one request carrying exactly the
drained records is issued iff the batch serializes. -/
theorem cycle_drain_spec (serP : PSer P) (k : String) (i : CycleInput P) (s : RtState P)
    (hbuf : s.buf = []) (hne : s.chan ++ i.arrWait ≠ []) :
    ∃ ns, cycle serP k i s = CycleResult.next ns ∧
      ns.chan = (s.chan ++ i.arrWait).drop
          (min (s.chan ++ i.arrWait).length PROCESS_MAX) ++ i.arrSend ∧
      ns.closed = s.closed ∧ ns.buf = [] ∧ ns.permits = idlePermits i s ∧
      (((serializeBatch serP k (((s.chan ++ i.arrWait).take
            (min (s.chan ++ i.arrWait).length PROCESS_MAX)).map toEventRecord)).isSome = true ∧
          ns.sent = s.sent ++ [((s.chan ++ i.arrWait).take
            (min (s.chan ++ i.arrWait).length PROCESS_MAX)).map toEventRecord]) ∨
        (serializeBatch serP k (((s.chan ++ i.arrWait).take
            (min (s.chan ++ i.arrWait).length PROCESS_MAX)).map toEventRecord) = none ∧
          ns.sent = s.sent)) := by
  have hlen : 0 < (s.chan ++ i.arrWait).length := List.length_pos.mpr hne
  have hmax0 : ¬ (min (s.chan ++ i.arrWait).length PROCESS_MAX = 0) := by
    simp only [PROCESS_MAX]; omega
  have hdr : ¬ (((s.chan ++ i.arrWait).take
      (min (s.chan ++ i.arrWait).length PROCESS_MAX)).length <
      min (s.chan ++ i.arrWait).length PROCESS_MAX) := by
    rw [List.length_take]; omega
  simp only [cycle, if_neg hmax0, if_neg hdr, hbuf, List.nil_append]
  refine ⟨_, rfl, rfl, rfl, rfl, rfl, ?_⟩
  rcases hser : serializeBatch serP k (((s.chan ++ i.arrWait).take
      (min (s.chan ++ i.arrWait).length PROCESS_MAX)).map toEventRecord) with _ | j
  · exact Or.inr ⟨rfl, rfl⟩
  · exact Or.inl ⟨by simp, rfl⟩

/-- The loop body never reaches the `break`: `recv_many` returns exactly
the `max` already-buffered records that `recv.len()` counted, so
`processed < max` never holds. The closed flag is untouched, the buffer
never grows, and at most one request, of at most
`s.buf.length + PROCESS_MAX` records, is issued per iteration. -/
theorem cycle_next (serP : PSer P) (k : String) (i : CycleInput P) (s : RtState P) :
    ∃ ns, cycle serP k i s = CycleResult.next ns ∧
      ns.closed = s.closed ∧ ns.buf.length ≤ s.buf.length ∧
      (ns.sent = s.sent ∨ ∃ recs, ns.sent = s.sent ++ [recs] ∧
        recs.length ≤ s.buf.length + PROCESS_MAX) := by
  by_cases hmax : min (s.chan ++ i.arrWait).length PROCESS_MAX = 0
  · exact ⟨{ s with permits := idlePermits i s, chan := (s.chan ++ i.arrWait) ++ i.arrSend },
      by simp only [cycle, if_pos hmax], rfl, le_refl _, Or.inl rfl⟩
  · have hdr : ¬ (((s.chan ++ i.arrWait).take
        (min (s.chan ++ i.arrWait).length PROCESS_MAX)).length <
        min (s.chan ++ i.arrWait).length PROCESS_MAX) := by
      rw [List.length_take]; omega
    simp only [cycle, if_neg hmax, if_neg hdr]
    refine ⟨_, rfl, rfl, by simp, ?_⟩
    rcases hser : serializeBatch serP k (s.buf ++ ((s.chan ++ i.arrWait).take
        (min (s.chan ++ i.arrWait).length PROCESS_MAX)).map toEventRecord) with _ | j
    · left
      simp only [hser]
    · refine Or.inr ⟨s.buf ++ ((s.chan ++ i.arrWait).take
          (min (s.chan ++ i.arrWait).length PROCESS_MAX)).map toEventRecord, ?_, ?_⟩
      · simp only [hser]
      · rw [List.length_append, List.length_map, List.length_take]
        simp only [PROCESS_MAX]
        omega

/-- Whatever the environment does, the dispatcher's `loop` is still
running after any finite number of iterations, with the closed flag
unchanged. -/
theorem run_running (serP : PSer P) (k : String) (inputs : List (CycleInput P)) :
    ∀ s : RtState P, ∃ s', run serP k inputs s = RunResult.running s' ∧
      s'.closed = s.closed := by
  induction inputs with
  | nil => exact fun s => ⟨s, rfl, rfl⟩
  | cons i is ih =>
    intro s
    obtain ⟨ns, hc, hcl, -, -⟩ := cycle_next serP k i s
    obtain ⟨s', hr, hcl'⟩ := ih ns
    exact ⟨s', by simp [run, hc, hr], hcl'.trans hcl⟩

theorem force_process_idem (p : Nat) :
    force_process (force_process p) = force_process p := by
  by_cases h : p = 0 <;> simp [force_process, h]

theorem wakePermits_le_one_aux :
    ∀ (ops : List WakeOp) (p : Nat), p ≤ 1 → ops.foldl WakeOp.apply p ≤ 1 := by
  intro ops
  induction ops with
  | nil => intro p hp; simpa using hp
  | cons op rest ih =>
    intro p hp
    rw [List.foldl_cons]
    refine ih _ ?_
    cases op <;>
      (simp only [WakeOp.apply, force_process, tryAcquireForget]; split <;> omega)

theorem lookupKey_append (k : String) (l1 l2 : List (String × J)) :
    lookupKey k (l1 ++ l2) =
      match lookupKey k l1 with
      | some v => some v
      | none => lookupKey k l2 := by
  induction l1 with
  | nil => simp [lookupKey]
  | cons kv rest ih =>
    cases kv with
    | mk k' v => by_cases h : k' = k <;> simp [lookupKey, h, ih]

/-- Shape of the serialized properties object of a shaped record whose
caller payload is absent: the `$process_person_profile` key survives (with
value `false`) exactly when the identity is empty. -/
theorem serializeEventProperties_shape_none (serP : PSer P) (ev : Event P)
    (hp : ev.properties = none) :
    serializeEventProperties serP (toEventRecord ev).properties =
      some ((if ev.distinct_id.isEmpty then
          [("$process_person_profile", J.jbool false)] else [])
        ++ [("$lib_name", J.jstr "sanglier")]) := by
  cases hie : ev.distinct_id.isEmpty <;>
    simp [serializeEventProperties, toEventRecord, hp, hie]

/-- Shape of the serialized properties object of a shaped record with a
caller payload: the runtime keys come first, the flattened payload after. -/
theorem serializeEventProperties_shape_some (serP : PSer P) (ev : Event P) (p : P)
    (hp : ev.properties = some p) :
    serializeEventProperties serP (toEventRecord ev).properties =
      (serP p).map (fun flat =>
        (if ev.distinct_id.isEmpty then
          [("$process_person_profile", J.jbool false)] else [])
        ++ [("$lib_name", J.jstr "sanglier")] ++ flat) := by
  cases hie : ev.distinct_id.isEmpty <;>
    cases hsp : serP p <;>
      simp [serializeEventProperties, toEventRecord, hp, hie, hsp]

/-- Quiet-environment drain: starting from an empty accumulation buffer,
with no further producer activity and all queued payloads serializable, the
loop empties the channel in back-to-back cycles, issuing non-empty batches
of at most `PROCESS_MAX` records whose concatenation is exactly the queued
records in enqueue order, in exactly `ceil(len / PROCESS_MAX)` requests. -/
theorem run_quiet_drains (serP : PSer P) (k : String) :
    ∀ (inputs : List (CycleInput P)) (s : RtState P),
      (∀ j ∈ inputs, j.arrWait = [] ∧ j.arrSend = []) →
      s.buf = [] →
      (∀ ev ∈ s.chan, serOk serP ev) →
      (s.chan.length + (PROCESS_MAX - 1)) / PROCESS_MAX ≤ inputs.length →
      ∃ s' batches, run serP k inputs s = RunResult.running s' ∧
        s'.chan = [] ∧ s'.buf = [] ∧
        s'.sent = s.sent ++ batches ∧
        batches.flatten = s.chan.map toEventRecord ∧
        batches.length = (s.chan.length + (PROCESS_MAX - 1)) / PROCESS_MAX ∧
        (∀ b ∈ batches, 0 < b.length ∧ b.length ≤ PROCESS_MAX) := by
  have hPM : PROCESS_MAX = 128 := rfl
  intro inputs
  induction inputs with
  | nil =>
    intro s hq hbuf hser hlen
    rw [hPM] at hlen
    simp only [List.length_nil, Nat.le_zero] at hlen
    have hchan : s.chan = [] := List.length_eq_zero.mp (by omega)
    exact ⟨s, [], rfl, hchan, hbuf, by simp, by simp [hchan],
      by simp [hchan, hPM], by simp⟩
  | cons i is ih =>
    intro s hq hbuf hser hlen
    have hqi := hq i (by simp)
    have hqis : ∀ j ∈ is, j.arrWait = [] ∧ j.arrSend = [] :=
      fun j hj => hq j (by simp [hj])
    by_cases hchan : s.chan = []
    · have hcyc := cycle_of_empty serP k i s hchan hqi.1
      obtain ⟨s', batches, hr, h1, h2, h3, h4, h5, h6⟩ :=
        ih { s with permits := idlePermits i s, chan := i.arrSend } hqis hbuf
          (by intro ev hev; rw [hqi.2] at hev; simp at hev)
          (by simp [hqi.2, hPM])

      refine ⟨s', batches, by simp [run, hcyc, hr], h1, h2, by simpa using h3, ?_, ?_, h6⟩
      · rw [h4, hqi.2, hchan]
      · rw [h5, hqi.2, hchan]
    · obtain ⟨ns, hcyc, hnchan, hncl, hnbuf, hnperm, hsent⟩ :=
        cycle_drain_spec serP k i s hbuf (by simp [hqi.1, hchan])
      rw [hqi.1, List.append_nil] at hnchan hsent
      rw [hqi.2, List.append_nil] at hnchan
      have hok : (serializeBatch serP k ((s.chan.take
          (min s.chan.length PROCESS_MAX)).map toEventRecord)).isSome = true :=
        serializeBatch_isSome serP k _
          (fun ev hev => hser ev (List.take_subset _ _ hev))
      have hsent' : ns.sent = s.sent ++ [(s.chan.take
          (min s.chan.length PROCESS_MAX)).map toEventRecord] := by
        rcases hsent with ⟨-, h⟩ | ⟨hnone, -⟩
        · exact h
        · rw [hnone] at hok; simp at hok
      have hlenpos : 0 < s.chan.length := List.length_pos.mpr hchan
      obtain ⟨s', batches, hr, h1, h2, h3, h4, h5, h6⟩ := ih ns hqis hnbuf
        (by
          intro ev hev
          rw [hnchan] at hev
          exact hser ev (List.drop_subset _ _ hev))
        (by
          rw [hnchan, List.length_drop, hPM]
          rw [hPM] at hlen
          simp only [List.length_cons] at hlen
          omega)
      refine ⟨s', (s.chan.take (min s.chan.length PROCESS_MAX)).map toEventRecord :: batches,
        by simp [run, hcyc, hr], h1, h2, ?_, ?_, ?_, ?_⟩
      · rw [h3, hsent', List.append_assoc, List.singleton_append]
      · rw [List.flatten_cons, h4, hnchan, ← List.map_append, List.take_append_drop]
      · rw [List.length_cons, h5, hnchan, List.length_drop, hPM]
        simp only [List.length_cons] at hlen
        omega
      · intro b hb
        rcases List.mem_cons.mp hb with rfl | hb'
        · constructor
          · rw [List.length_map, List.length_take]
            rw [hPM]
            omega
          · rw [List.length_map, List.length_take]
            rw [hPM]
            omega
        · exact h6 b hb'

/-! ## Claims -/

/-- Claim C1. The claim states that once every producer handle is dropped
(ingress channel closed) the runtime loop reaches its exit after finitely
many steps. The code does the opposite: its only exit is the `break` on
`processed < max`, and `recv_many` always returns exactly the
`max = min(len, PROCESS_MAX)` records that were counted as buffered, so the
`break` never fires. This theorem evaluates the code at the divergence:
from every state with the channel closed, after every finite number of
loop iterations the dispatcher is still running and has not exited. -/
theorem closed_channel_loop_never_exits (serP : PSer P) (k : String)
    (inputs : List (CycleInput P)) (s : RtState P) (hclosed : s.closed = true) :
    ∃ s', run serP k inputs s = RunResult.running s' ∧ s'.closed = true := by
  obtain ⟨s', hr, hcl⟩ := run_running serP k inputs s
  exact ⟨s', hr, by rw [hcl, hclosed]⟩

/-- Witness for C1's theorem at the concrete failing input: all senders
dropped (closed channel), nothing queued, no permits — after three loop
iterations the dispatcher is still running. -/
theorem closed_channel_loop_never_exits_witness :
    (({ chan := [], closed := true, permits := 0, buf := [], sent := [] } :
        RtState Unit).closed = true) ∧
    ∃ s', run (fun _ => none) "key"
        [⟨false, [], [], true⟩, ⟨true, [], [], true⟩, ⟨false, [], [], true⟩]
        ({ chan := [], closed := true, permits := 0, buf := [], sent := [] } :
          RtState Unit) =
        RunResult.running s' ∧ s'.closed = true :=
  ⟨rfl, closed_channel_loop_never_exits (fun _ => none) "key"
    [⟨false, [], [], true⟩, ⟨true, [], [], true⟩, ⟨false, [], [], true⟩]
    ({ chan := [], closed := true, permits := 0, buf := [], sent := [] } :
      RtState Unit) rfl⟩

/-- Claim C5: `drive` fails at setup time — via the `panic!` guards, which
run before the channel, client and dispatcher task exist — when the API
key or the base URL is empty, and the failure is surfaced at the `drive`
call; with both present (and the HTTP client building) construction
succeeds and the dispatcher is spawned in its initial state. -/
theorem drive_requires_config (b : PostHogBuilder) (httpBuildOk : Bool) :
    ((b.api_key = "" ∨ b.base_url = "") →
      ∃ msg, drive P b httpBuildOk = DriveResult.setupFailure msg) ∧
    (b.api_key ≠ "" → b.base_url ≠ "" →
      drive P b true = DriveResult.driven (initialRtState P)) := by
  constructor
  · rintro (h | h)
    · exact ⟨"Missing PostHog API key",
        by simp [drive, (String.isEmpty_iff _).mpr h]⟩
    · by_cases hk : b.api_key = ""
      · exact ⟨"Missing PostHog API key",
          by simp [drive, (String.isEmpty_iff _).mpr hk]⟩
      · refine ⟨"Missing PostHog base URL", ?_⟩
        have hk' : b.api_key.isEmpty = false := by
          rw [← Bool.not_eq_true]
          intro hc
          exact hk ((String.isEmpty_iff _).mp hc)
        simp [drive, hk', (String.isEmpty_iff _).mpr h]
  · intro hk hu
    have hk' : b.api_key.isEmpty = false := by
      rw [← Bool.not_eq_true]
      intro hc
      exact hk ((String.isEmpty_iff _).mp hc)
    have hu' : b.base_url.isEmpty = false := by
      rw [← Bool.not_eq_true]
      intro hc
      exact hu ((String.isEmpty_iff _).mp hc)
    simp [drive, hk', hu']

/-- Witness for C5's theorem: an empty API key fails setup; a fully
configured builder spawns the dispatcher. -/
theorem drive_requires_config_witness :
    (("" : String) = "" ∨ ("https://eu.example" : String) = "") ∧
    (∃ msg, drive Unit
        { tick := 2000, api_key := "", base_url := "https://eu.example",
          user_agent := "ua" } true = DriveResult.setupFailure msg) ∧
    drive Unit
        { tick := 2000, api_key := "phc_abc", base_url := "https://eu.example",
          user_agent := "ua" } true = DriveResult.driven (initialRtState Unit) :=
  ⟨Or.inl rfl,
   (drive_requires_config
     { tick := 2000, api_key := "", base_url := "https://eu.example",
       user_agent := "ua" } true).1 (Or.inl rfl),
   (drive_requires_config
     { tick := 2000, api_key := "phc_abc", base_url := "https://eu.example",
       user_agent := "ua" } true).2 (by decide) (by decide)⟩

/-- Claim C8: the wake signal is a single-slot coalescing semaphore.
Any `n + 1` consecutive `force_process` calls leave the same permit count
as a single call; a call with a permit already pending is a no-op; and
starting from `Semaphore::new(0)`, every sequence of producer
`force_process` calls and dispatcher acquire operations keeps the
outstanding permit count at most 1. -/
theorem wake_signal_coalesces :
    (∀ (p n : Nat), force_process^[n + 1] p = force_process p) ∧
    (∀ p : Nat, 0 < p → force_process p = p) ∧
    (∀ ops : List WakeOp, wakePermits ops ≤ 1) := by
  refine ⟨?_, ?_, ?_⟩
  · intro p n
    induction n with
    | zero => rfl
    | succ m ihm => rw [Function.iterate_succ_apply', ihm, force_process_idem]
  · intro p hp
    simp [force_process, Nat.pos_iff_ne_zero.mp hp]
  · intro ops
    exact wakePermits_le_one_aux ops 0 (by omega)

/-- Witness for C8's theorem: three calls equal one; a pending permit is
left alone; a burst of calls plus a consume stays within one permit. -/
theorem wake_signal_coalesces_witness :
    force_process^[3] 0 = force_process 0 ∧
    (0 < 1 ∧ force_process 1 = 1) ∧
    wakePermits [WakeOp.force, WakeOp.force, WakeOp.force, WakeOp.tryAcquire] ≤ 1 :=
  ⟨wake_signal_coalesces.1 0 2,
   ⟨by decide, wake_signal_coalesces.2.1 1 (by decide)⟩,
   wake_signal_coalesces.2.2 [WakeOp.force, WakeOp.force, WakeOp.force, WakeOp.tryAcquire]⟩

/-- Claim C9: an iteration that reaches the drain decision with zero
queued records (timer elapsed or spurious wake) shapes no record, performs
no serialization, issues no HTTP request, and continues into the next idle
wait; only the wakeup permits change. -/
theorem empty_channel_no_request (serP : PSer P) (k : String) (i : CycleInput P)
    (s : RtState P) (hc : s.chan = []) (hw : i.arrWait = []) :
    ∃ ns, cycle serP k i s = CycleResult.next ns ∧
      ns.sent = s.sent ∧ ns.buf = s.buf ∧ ns.chan = i.arrSend ∧
      ns = { s with permits := idlePermits i s, chan := i.arrSend } :=
  ⟨_, cycle_of_empty serP k i s hc hw, rfl, rfl, rfl, rfl⟩

/-- Witness for C9's theorem: a wake fired with nothing queued — no
request is issued. -/
theorem empty_channel_no_request_witness :
    (({ chan := [], closed := false, permits := 1, buf := [], sent := [] } :
        RtState Unit).chan = []) ∧
    ∃ ns, cycle (fun _ => none) "key" ⟨true, [], [], true⟩
        ({ chan := [], closed := false, permits := 1, buf := [], sent := [] } :
          RtState Unit) =
        CycleResult.next ns ∧
      ns.sent = [] ∧ ns.buf = [] ∧ ns.chan = [] ∧
      ns = { chan := [], closed := false, permits := 0, buf := [], sent := [] } := by
  refine ⟨rfl, ?_⟩
  obtain ⟨ns, h1, h2, h3, h4, h5⟩ := empty_channel_no_request (fun _ => none) "key"
    ⟨true, [], [], true⟩
    ({ chan := [], closed := false, permits := 1, buf := [], sent := [] } :
      RtState Unit) rfl rfl
  exact ⟨ns, h1, h2, h3, h4, by rw [h5]; decide⟩

/-- Claim C3: with `N` records (1 ≤ N ≤ PROCESS_MAX) all queued when a
drain cycle starts, serializable payloads and no further producer
activity, the dispatcher issues exactly one request over the whole run,
whose batch is exactly those `N` records in enqueue order, and drains the
channel. (Delivery outcome never affects the dispatcher's state, so this
holds in particular when delivery succeeds.) -/
theorem single_batch_delivery (serP : PSer P) (k : String) (l : List (Event P))
    (i : CycleInput P) (inputs : List (CycleInput P)) (c : Bool) (p : Nat)
    (h1 : 1 ≤ l.length) (h2 : l.length ≤ PROCESS_MAX)
    (hser : ∀ ev ∈ l, serOk serP ev)
    (hq : ∀ j ∈ i :: inputs, j.arrWait = [] ∧ j.arrSend = []) :
    ∃ s', run serP k (i :: inputs)
        { chan := l, closed := c, permits := p, buf := [], sent := [] } =
        RunResult.running s' ∧
      s'.sent = [l.map toEventRecord] ∧ s'.chan = [] := by
  have hPM : PROCESS_MAX = 128 := rfl
  rw [hPM] at h2
  have hlen' : (l.length + (PROCESS_MAX - 1)) / PROCESS_MAX ≤ (i :: inputs).length := by
    rw [hPM]
    simp only [List.length_cons]
    omega
  obtain ⟨s', batches, hr, hchan, hbuf, hsent, hflat, hlen, hb⟩ :=
    run_quiet_drains serP k (i :: inputs)
      { chan := l, closed := c, permits := p, buf := [], sent := [] }
      hq rfl hser hlen'
  have hone : batches.length = 1 := by
    rw [hlen]
    show (l.length + (PROCESS_MAX - 1)) / PROCESS_MAX = 1
    rw [hPM]
    omega
  obtain ⟨b, rfl⟩ := List.length_eq_one.mp hone
  have hbval : b = l.map toEventRecord := by simpa using hflat
  refine ⟨s', hr, ?_, hchan⟩
  rw [hsent, hbval]
  simp

/-- Witness for C3's theorem: two queued events, one cycle, one request
carrying both records in order. -/
theorem single_batch_delivery_witness :
    (1 ≤ ([⟨"signup", "u1", none⟩, ⟨"page", "", none⟩] : List (Event Unit)).length) ∧
    ∃ s', run (fun _ => some []) "key" [⟨false, [], [], true⟩]
        ({ chan := [⟨"signup", "u1", none⟩, ⟨"page", "", none⟩], closed := false,
           permits := 0, buf := [], sent := [] } : RtState Unit) =
        RunResult.running s' ∧
      s'.sent = [([⟨"signup", "u1", none⟩, ⟨"page", "", none⟩] :
        List (Event Unit)).map toEventRecord] ∧ s'.chan = [] :=
  ⟨by decide,
   single_batch_delivery (fun _ => some []) "key"
     [⟨"signup", "u1", none⟩, ⟨"page", "", none⟩] ⟨false, [], [], true⟩ [] false 0
     (by decide) (by decide) (by decide) (by decide)⟩

/-- Claim C4: a burst of `N > PROCESS_MAX` records queued before the
dispatcher runs, with no further producer activity, is delivered in
exactly `ceil(N / PROCESS_MAX)` back-to-back requests, each of at most
`PROCESS_MAX` records, whose concatenation in delivery order is exactly
the original enqueue order. -/
theorem burst_chunked_delivery (serP : PSer P) (k : String) (l : List (Event P))
    (inputs : List (CycleInput P)) (c : Bool) (p : Nat)
    (hN : PROCESS_MAX < l.length)
    (hser : ∀ ev ∈ l, serOk serP ev)
    (hq : ∀ j ∈ inputs, j.arrWait = [] ∧ j.arrSend = [])
    (hlen : (l.length + (PROCESS_MAX - 1)) / PROCESS_MAX ≤ inputs.length) :
    ∃ s' batches, run serP k inputs
        { chan := l, closed := c, permits := p, buf := [], sent := [] } =
        RunResult.running s' ∧
      s'.sent = batches ∧
      batches.length = (l.length + (PROCESS_MAX - 1)) / PROCESS_MAX ∧
      batches.flatten = l.map toEventRecord ∧
      (∀ b ∈ batches, b.length ≤ PROCESS_MAX) ∧
      s'.chan = [] := by
  obtain ⟨s', batches, hr, hchan, hbuf, hsent, hflat, hlenb, hb⟩ :=
    run_quiet_drains serP k inputs
      { chan := l, closed := c, permits := p, buf := [], sent := [] }
      hq rfl hser hlen
  exact ⟨s', batches, hr, by simpa using hsent, hlenb, hflat,
    fun b hb' => (hb b hb').2, hchan⟩

/-- Witness for C4's theorem: a burst of 129 identical events is delivered
in exactly 2 batches concatenating to the original order. -/
theorem burst_chunked_delivery_witness :
    PROCESS_MAX < (List.replicate 129 (⟨"e", "", none⟩ : Event Unit)).length ∧
    ∃ s' batches, run (fun _ => some []) "key"
        [⟨false, [], [], true⟩, ⟨false, [], [], true⟩]
        ({ chan := List.replicate 129 (⟨"e", "", none⟩ : Event Unit),
           closed := false, permits := 0, buf := [], sent := [] } : RtState Unit) =
        RunResult.running s' ∧
      s'.sent = batches ∧
      batches.length = ((List.replicate 129 (⟨"e", "", none⟩ : Event Unit)).length +
        (PROCESS_MAX - 1)) / PROCESS_MAX ∧
      batches.flatten =
        (List.replicate 129 (⟨"e", "", none⟩ : Event Unit)).map toEventRecord ∧
      (∀ b ∈ batches, b.length ≤ PROCESS_MAX) ∧
      s'.chan = [] :=
  ⟨by simp [PROCESS_MAX],
   burst_chunked_delivery (fun _ => some []) "key"
     (List.replicate 129 (⟨"e", "", none⟩ : Event Unit))
     [⟨false, [], [], true⟩, ⟨false, [], [], true⟩] false 0
     (by simp [PROCESS_MAX])
     (fun ev hev => by rw [List.eq_of_mem_replicate hev]; decide)
     (by decide) (by simp [PROCESS_MAX])⟩

/-- Claim C6: a cycle whose delivery attempt fails is handled exactly like
a successful one as far as the dispatcher's state goes — the accumulation
buffer ends empty, the drained prefix is removed from the channel for good
(later requests can only draw on the remaining suffix and later arrivals),
at most one request is attempted in the cycle (none at all when batch
serialization fails), the HTTP outcome flag has no effect on the resulting
state, and the loop continues to the next cycle instead of retrying. -/
theorem failed_batch_discarded (serP : PSer P) (k : String) (i : CycleInput P)
    (s : RtState P) (ok : Bool) (hbuf : s.buf = [])
    (hne : s.chan ++ i.arrWait ≠ []) :
    ∃ ns, cycle serP k { i with deliverOk := ok } s = CycleResult.next ns ∧
      cycle serP k i s = CycleResult.next ns ∧
      ns.buf = [] ∧
      ns.chan = (s.chan ++ i.arrWait).drop
        (min (s.chan ++ i.arrWait).length PROCESS_MAX) ++ i.arrSend ∧
      (ns.sent = s.sent ++ [((s.chan ++ i.arrWait).take
          (min (s.chan ++ i.arrWait).length PROCESS_MAX)).map toEventRecord] ∨
        (serializeBatch serP k (((s.chan ++ i.arrWait).take
          (min (s.chan ++ i.arrWait).length PROCESS_MAX)).map toEventRecord) = none ∧
         ns.sent = s.sent)) := by
  have hdel : cycle serP k { i with deliverOk := ok } s = cycle serP k i s := by
    cases i
    rfl
  obtain ⟨ns, hcyc, hchan, -, hbuf', -, hsent⟩ :=
    cycle_drain_spec serP k i s hbuf hne
  refine ⟨ns, by rw [hdel, hcyc], hcyc, hbuf', hchan, ?_⟩
  rcases hsent with ⟨-, h⟩ | ⟨h1, h2⟩
  · exact Or.inl h
  · exact Or.inr ⟨h1, h2⟩

/-- Witness for C6's theorem: one queued record, failing delivery — the
buffer ends empty, the record is gone from the channel, and the cycle
continues. -/
theorem failed_batch_discarded_witness :
    (({ chan := [⟨"e", "u", none⟩], closed := false, permits := 0, buf := [],
        sent := [] } : RtState Unit).chan ++
      ([] : List (Event Unit)) ≠ []) ∧
    ∃ ns, cycle (fun _ => some []) "key" ⟨false, [], [], false⟩
        ({ chan := [⟨"e", "u", none⟩], closed := false, permits := 0, buf := [],
           sent := [] } : RtState Unit) = CycleResult.next ns ∧
      cycle (fun _ => some []) "key" ⟨false, [], [], true⟩
        ({ chan := [⟨"e", "u", none⟩], closed := false, permits := 0, buf := [],
           sent := [] } : RtState Unit) = CycleResult.next ns ∧
      ns.buf = [] ∧
      ns.chan = (([⟨"e", "u", none⟩] : List (Event Unit)).drop
        (min ([⟨"e", "u", none⟩] : List (Event Unit)).length PROCESS_MAX) ++ [])
        ∧
      (ns.sent = [] ++ [(([⟨"e", "u", none⟩] : List (Event Unit)).take
          (min ([⟨"e", "u", none⟩] : List (Event Unit)).length PROCESS_MAX)).map
          toEventRecord] ∨
        (serializeBatch (fun _ => some []) "key"
          ((([⟨"e", "u", none⟩] : List (Event Unit)).take
            (min ([⟨"e", "u", none⟩] : List (Event Unit)).length
              PROCESS_MAX)).map toEventRecord) = none ∧
         ns.sent = [])) := by
  refine ⟨by decide, ?_⟩
  obtain ⟨ns, h1, h2, h3, h4, h5⟩ := failed_batch_discarded (fun _ => some []) "key"
    ⟨false, [], [], true⟩
    ({ chan := [⟨"e", "u", none⟩], closed := false, permits := 0, buf := [],
       sent := [] } : RtState Unit) false rfl (by decide)
  exact ⟨ns, h1, h2, h3, h4, h5⟩

/-- Claim C7: from any state whose accumulation buffer is empty and whose
already-issued requests respect the bound (in particular the freshly
spawned dispatcher), every request body ever issued carries at most
`PROCESS_MAX = 128` records, for every sequence of enqueues and wakes. -/
theorem batch_size_bounded (serP : PSer P) (k : String)
    (inputs : List (CycleInput P)) :
    ∀ (s s' : RtState P), s.buf = [] →
      (∀ b ∈ s.sent, b.length ≤ PROCESS_MAX) →
      run serP k inputs s = RunResult.running s' →
      ∀ b ∈ s'.sent, b.length ≤ PROCESS_MAX := by
  induction inputs with
  | nil =>
    intro s s' hbuf hsent hrun
    cases hrun
    exact hsent
  | cons i is ih =>
    intro s s' hbuf hsent hrun
    obtain ⟨ns, hc, -, hbuf', hgrow⟩ := cycle_next serP k i s
    rw [run, hc] at hrun
    refine ih ns s' ?_ ?_ hrun
    · rw [hbuf] at hbuf'
      simpa using List.length_eq_zero.mp (Nat.le_zero.mp hbuf')
    · rcases hgrow with h | ⟨recs, hrecs, hlen⟩
      · rw [h]; exact hsent
      · rw [hrecs]
        intro b hb
        rcases List.mem_append.mp hb with hb' | hb'
        · exact hsent b hb'
        · rw [List.mem_singleton.mp hb']
          rw [hbuf] at hlen
          simpa using hlen

/-- Witness for C7's theorem: a run with mid-cycle arrivals — every
issued request stays within the bound. -/
theorem batch_size_bounded_witness :
    (({ chan := [], closed := false, permits := 0, buf := [], sent := [] } :
        RtState Unit).buf = []) ∧
    run (fun _ => some []) "key"
      [⟨false, [⟨"a", "u", none⟩], [⟨"b", "", none⟩], true⟩]
      ({ chan := [], closed := false, permits := 0, buf := [], sent := [] } :
        RtState Unit) =
      RunResult.running
        { chan := [⟨"b", "", none⟩], closed := false, permits := 0, buf := [],
          sent := [[toEventRecord ⟨"a", "u", none⟩]] } ∧
    ∀ b ∈ ({ chan := [⟨"b", "", none⟩], closed := false, permits := 0, buf := [],
             sent := [[toEventRecord ⟨"a", "u", none⟩]] } : RtState Unit).sent,
      b.length ≤ PROCESS_MAX :=
  ⟨rfl, by decide,
   batch_size_bounded (fun _ => some []) "key"
     [⟨false, [⟨"a", "u", none⟩], [⟨"b", "", none⟩], true⟩]
     ({ chan := [], closed := false, permits := 0, buf := [], sent := [] } :
       RtState Unit)
     { chan := [⟨"b", "", none⟩], closed := false, permits := 0, buf := [],
       sent := [[toEventRecord ⟨"a", "u", none⟩]] }
     rfl (by decide) (by decide)⟩

/-- Counterexample to claim C2 as stated: the identified record
`{event: "signup", distinct_id: "u1"}` has a non-empty `distinct_id`, yet
its serialized properties object does not contain the key
`$process_person_profile` at all — the serde attribute
`skip_serializing_if = "Clone::clone"` on that field skips it exactly when
its value is `true`, i.e. exactly for identified events. -/
theorem ppp_key_counterexample :
    ("u1" : String) ≠ "" ∧
    (serializeEventProperties (fun _ : Unit => some [])
        (toEventRecord ({ name := "signup", distinct_id := "u1",
                          properties := none } : Event Unit)).properties).map
      (lookupKey "$process_person_profile") = some none :=
  ⟨by decide, rfl⟩

/-- Claim C2 as amended: in every serialized event record whose
caller-supplied flattened properties do not themselves use the key, the
properties object contains `$process_person_profile` — necessarily with
value `false` — if and only if the record's `distinct_id` is empty; for
every identified event the key is omitted entirely. -/
theorem ppp_key_amended (serP : PSer P) (ev : Event P) (fields : List (String × J))
    (h : serializeEventProperties serP (toEventRecord ev).properties = some fields)
    (hflat : ∀ p flat, ev.properties = some p → serP p = some flat →
      lookupKey "$process_person_profile" flat = none) :
    lookupKey "$process_person_profile" fields =
      if ev.distinct_id = "" then some (J.jbool false) else none := by
  cases hp : ev.properties with
  | none =>
    rw [serializeEventProperties_shape_none serP ev hp] at h
    injection h with h
    subst h
    by_cases hid : ev.distinct_id = ""
    · have hie := (String.isEmpty_iff _).mpr hid
      simp [hie, hid, lookupKey]
    · have hie : ev.distinct_id.isEmpty = false := by
        rw [← Bool.not_eq_true]
        intro hc
        exact hid ((String.isEmpty_iff _).mp hc)
      simp [hie, hid, lookupKey]
  | some p =>
    rw [serializeEventProperties_shape_some serP ev p hp] at h
    cases hsp : serP p with
    | none => rw [hsp] at h; simp at h
    | some flat =>
      rw [hsp] at h
      simp only [Option.map_some'] at h
      injection h with h
      subst h
      have hl := hflat p flat hp hsp
      by_cases hid : ev.distinct_id = ""
      · have hie := (String.isEmpty_iff _).mpr hid
        simp [hie, hid, lookupKey]
      · have hie : ev.distinct_id.isEmpty = false := by
          rw [← Bool.not_eq_true]
          intro hc
          exact hid ((String.isEmpty_iff _).mp hc)
        simp [hie, hid, lookupKey, hl]

/-- Witness for C2's amended theorem: an anonymous record carries the key
with value `false`. -/
theorem ppp_key_amended_witness :
    serializeEventProperties (fun _ : Unit => none)
      (toEventRecord ({ name := "e", distinct_id := "",
                        properties := none } : Event Unit)).properties =
      some [("$process_person_profile", J.jbool false),
        ("$lib_name", J.jstr "sanglier")] ∧
    lookupKey "$process_person_profile"
      [("$process_person_profile", J.jbool false),
        ("$lib_name", J.jstr "sanglier")] =
      (if ("" : String) = "" then some (J.jbool false) else none) :=
  ⟨rfl, ppp_key_amended (fun _ => none)
    ({ name := "e", distinct_id := "", properties := none } : Event Unit)
    [("$process_person_profile", J.jbool false), ("$lib_name", J.jstr "sanglier")]
    rfl (fun p flat hp _ => by simp at hp)⟩

/-- Claim C10: an event built with `identify("")` is the very same value
as one built with `anonymous()` — hence serialized identically — and in
every serialized wire record the `distinct_id` field is present (carrying
the identity string) if and only if the identity is non-empty. -/
theorem distinct_id_omitted_iff_empty (serP : PSer P) (ev : Event P)
    (fields : List (String × J))
    (h : serializeEventRecord serP (toEventRecord ev) = some fields) :
    (∀ nm : String, (capture nm : NewEvent P).identify "" =
      (capture nm : NewEvent P).anonymous) ∧
    lookupKey "distinct_id" fields =
      (if ev.distinct_id = "" then none else some (J.jstr ev.distinct_id)) := by
  refine ⟨fun nm => rfl, ?_⟩
  cases hm : serializeEventProperties serP (toEventRecord ev).properties with
  | none =>
    simp only [serializeEventRecord, hm, Option.map_none'] at h
    exact Option.noConfusion h
  | some props =>
    simp only [serializeEventRecord, hm, Option.map_some'] at h
    injection h with h
    subst h
    by_cases hid : ev.distinct_id = ""
    · have hie := (String.isEmpty_iff _).mpr hid
      simp [toEventRecord, hie, hid, lookupKey]
    · have hie : ev.distinct_id.isEmpty = false := by
        rw [← Bool.not_eq_true]
        intro hc
        exact hid ((String.isEmpty_iff _).mp hc)
      simp [toEventRecord, hie, hid, lookupKey]

/-- Witness for C10's theorem: an identified record carries its
`distinct_id` field. -/
theorem distinct_id_omitted_iff_empty_witness :
    serializeEventRecord (fun _ : Unit => none)
      (toEventRecord ({ name := "e", distinct_id := "u",
                        properties := none } : Event Unit)) =
      some [("event", J.jstr "e"), ("distinct_id", J.jstr "u"),
        ("properties", J.jobj [("$lib_name", J.jstr "sanglier")])] ∧
    ((∀ nm : String, (capture nm : NewEvent Unit).identify "" =
        (capture nm : NewEvent Unit).anonymous) ∧
      lookupKey "distinct_id"
        [("event", J.jstr "e"), ("distinct_id", J.jstr "u"),
          ("properties", J.jobj [("$lib_name", J.jstr "sanglier")])] =
        (if ("u" : String) = "" then none else some (J.jstr ("u" : String)))) :=
  ⟨rfl, distinct_id_omitted_iff_empty (fun _ => none)
    { name := "e", distinct_id := "u", properties := none } _ rfl⟩

end Sanglier
